import Mathlib

/-!
Verification development for the HackerNews API test framework.

This file embeds the framework's core pipeline — the HTTP transport client
with retry (`src/core/http/HttpClient.ts`), the response validator library
(`ResponseValidator`), the configuration resolver (`ConfigManager`), the
domain client (`HackerNewsClient`), and the declarative schema checkers
(item/story/user AJV schemas) — as executable Lean definitions, and proves
or refutes the specification's claims about them.

Decoded JSON payloads are modelled by the inductive `Json` below.  JSON
numbers are modelled as integers: no claim under consideration depends on
fractional values, only on the runtime type tag.  Property access in
`getNestedValue` models JavaScript optional-chaining access on decoded JSON
data: lookup on objects, `undefined` (i.e. `none`) on `null`, `undefined`
and primitives.  Built-in properties of primitives and arrays (such as
`length`) and numeric array indices are outside the model; the validators
under study are only ever applied to named record fields.
-/

namespace HNFramework

/-- Decoded JSON value, as produced by the transport's decode step. -/
inductive Json where
  | null : Json
  | bool (b : Bool) : Json
  | num (n : Int) : Json
  | str (s : String) : Json
  | arr (elems : List Json) : Json
  | obj (fields : List (String × Json)) : Json

/-- `data === null` test from `HackerNewsClient.getItem` / `getUser`. -/
def Json.isNull : Json → Bool
  | .null => true
  | _ => false

/-- JavaScript `Array.isArray(value) ? 'array' : typeof value` as used by
`ResponseValidator.validateType` (note `typeof null = 'object'`). -/
def typeOfJson : Json → String
  | .arr _ => "array"
  | .null => "object"
  | .obj _ => "object"
  | .num _ => "number"
  | .str _ => "string"
  | .bool _ => "boolean"

/-- First-match lookup of a named field in a decoded JSON object
(JavaScript objects have unique keys; on a duplicated key the first
binding wins, as in `JSON.parse`'s last-wins semantics folded into a
single binding). -/
def lookupJson : List (String × Json) → String → Option Json
  | [], _ => none
  | (a, v) :: rest, k => if k = a then some v else lookupJson rest k

/-- One JavaScript property access `current?.[prop]` on decoded JSON data:
object lookup; `undefined` on `null`/`undefined` (optional chaining) and on
primitives and arrays (whose only own properties are outside the model). -/
def jsGet : Option Json → String → Option Json
  | some (.obj fields), prop => lookupJson fields prop
  | _, _ => none

/-- Accumulator loop of `splitOnChar`. -/
def splitOnCharAux (sep : Char) : List Char → List Char → List String
  | [], acc => [String.mk acc.reverse]
  | c :: rest, acc =>
      if c = sep then String.mk acc.reverse :: splitOnCharAux sep rest []
      else splitOnCharAux sep rest (c :: acc)

/-- JavaScript `String.prototype.split` with a one-character separator
(as used with `'.'` in `getNestedValue` and `','` in `ConfigManager`):
`"a.b" → ["a","b"]`, `"" → [""]`, `"a..b" → ["a","","b"]`. -/
def splitOnChar (sep : Char) (s : String) : List String :=
  splitOnCharAux sep s.data []

/-- `ResponseValidator.getNestedValue`: dot-separated path traversal,
`path.split('.').reduce((current, prop) => current?.[prop], obj)`. -/
def getNestedValue (data : Json) (path : String) : Option Json :=
  (splitOnChar '.' path).foldl jsGet (some data)

/-- `value === undefined || value === null` — the missing-field test of
`ResponseValidator.validateRequired`. -/
def isMissingValue : Option Json → Bool
  | none => true
  | some .null => true
  | some _ => false

/-- Structured payload of a `ValidationError`'s `validationDetails`. -/
inductive VDetails where
  | missingFields (missing : List String) (data : Json)
  | statusMismatch (expected : List Nat) (actual : Nat)
  | typeMismatch (expected : String) (actual : String) (value : Option Json)
  | notArray (value : Option Json)
  | emptyArray (value : List Json)

/-- `ValidationError` from `ErrorHandler.ts`: message, offending field,
details payload. -/
structure ValidationErrorM where
  message : String
  field : Option String
  details : VDetails

/-- `APIError` from `ErrorHandler.ts`: status code, message, endpoint,
optional response body. -/
structure APIErrorM where
  statusCode : Nat
  message : String
  endpoint : String
  responseBody : Option Json

/-- `ConfigurationError` from `ErrorHandler.ts`. -/
structure ConfigurationErrorM where
  message : String

/-- `ResponseValidator.validateRequired`: collects every dot-path whose
traversed value is `undefined` or `null`; throws a `ValidationError` whose
`field` is `missing[0]` and whose details carry the whole `missing` list
and the data. -/
def validateRequired (data : Json) (fields : List String) :
    Except ValidationErrorM Unit :=
  let missing := fields.filter fun f => isMissingValue (getNestedValue data f)
  match missing with
  | [] => .ok ()
  | m :: _ =>
      .error ⟨"Missing required fields: " ++ String.intercalate ", " missing,
              some m, .missingFields missing data⟩

/-- `ResponseValidator.validateType`: compares
`Array.isArray(value) ? 'array' : typeof value` with the expected type
name (`typeof undefined = 'undefined'`). -/
def validateType (data : Json) (field : String) (expectedType : String) :
    Except ValidationErrorM Unit :=
  let value := getNestedValue data field
  let actualType := match value with
    | some v => typeOfJson v
    | none => "undefined"
  if actualType = expectedType then .ok ()
  else
    .error ⟨"Field '" ++ field ++ "' should be of type '" ++ expectedType ++
              "', got '" ++ actualType ++ "'",
            some field, .typeMismatch expectedType actualType value⟩

/-- `ResponseValidator.validateArrayNotEmpty`: the field must be an array
with at least one element. -/
def validateArrayNotEmpty (data : Json) (field : String) :
    Except ValidationErrorM Unit :=
  match getNestedValue data field with
  | some (.arr elems) =>
      if elems.isEmpty then
        .error ⟨"Array field '" ++ field ++ "' should not be empty",
                some field, .emptyArray elems⟩
      else .ok ()
  | value =>
      .error ⟨"Field '" ++ field ++ "' should be an array",
              some field, .notArray value⟩

/-! ## URL building (`HttpClient.buildUrl`)

URLs are modelled as lists of characters so that boundary-slash reasoning
is by structural induction.  `buildUrlStr` lifts the operation back to
`String` for the domain client. -/

/-- `path.startsWith('http://') || path.startsWith('https://')`. -/
def isAbsoluteUrl (path : List Char) : Bool :=
  "http://".data.isPrefixOf path || "https://".data.isPrefixOf path

/-- `HttpClient.buildUrl`: absolute URLs pass through unchanged; otherwise
strip one trailing slash from the base (`endsWith('/') ? slice(0,-1)`),
prepend a slash to the path when it lacks one, and concatenate. -/
def buildUrl (base path : List Char) : List Char :=
  if isAbsoluteUrl path then path
  else
    let b := if base.getLast? = some '/' then base.dropLast else base
    let e := if path.head? = some '/' then path else '/' :: path
    b ++ e

/-- Modelled from the spec: "join base and path, normalizing exactly one
separating slash" — all boundary slashes removed from both sides and a
single `/` inserted.  Used only to compare the source's `buildUrl` with
the spec's wording. -/
def joinSingleSlash (base path : List Char) : List Char :=
  (base.reverse.dropWhile (· = '/')).reverse ++ '/' :: path.dropWhile (· = '/')

/-- `buildUrl` on `String`s, as called by `HttpClient.request`. -/
def buildUrlStr (base path : String) : String :=
  ⟨buildUrl base.data path.data⟩

/-! ## Transport client (`HttpClient.request`)

One attempt of the retry loop either obtains an HTTP response from `fetch`
(any status) or fails at transport level (network error, or the abort
fired by the per-attempt timeout).  The whole run of a request is modelled
by the sequence of its attempt outcomes, indexed by attempt number. -/

/-- Response envelope (`HttpResponse`): status, status text, decoded body,
`ok` flag (status in the 2xx range).  Headers carry no behaviour relevant
to the claims and are omitted. -/
structure HttpResponseM where
  status : Nat
  statusText : String
  data : Json
  ok : Bool

/-- Outcome of one `fetch` inside the retry loop. -/
inductive AttemptOutcome where
  | response (status : Nat) (statusText : String) (data : Json)
  | networkError (msg : String)

/-- The error caught by the retry loop's `catch`: either the `APIError`
thrown on a non-2xx response, or a transport-level error (network failure
or `AbortError` from the timeout), which carries no HTTP response. -/
inductive CaughtError where
  | api (e : APIErrorM)
  | generic (msg : String)

/-- Body of one iteration of the retry loop in `HttpClient.request`:
build the envelope with `ok` iff the status is 2xx, throw an `APIError`
carrying status and decoded body when not ok, return the envelope when
ok. -/
def attemptStep (url : String) : AttemptOutcome → Except CaughtError HttpResponseM
  | .response status statusText data =>
      if 200 ≤ status ∧ status ≤ 299 then
        .ok ⟨status, statusText, data, true⟩
      else
        .error (.api ⟨status, "HTTP " ++ toString status ++ ": " ++ statusText,
                      url, some data⟩)
  | .networkError msg => .error (.generic msg)

/-- Whether the attempt counts as a failure for the retry loop. -/
def attemptFails (url : String) (o : AttemptOutcome) : Bool :=
  match attemptStep url o with
  | .error _ => true
  | .ok _ => false

/-- `ErrorHandler.handleAPIError`: rethrow an `APIError` unchanged,
otherwise wrap the error in a synthetic-500 `APIError`.  (The
`error.response` branch of the source never fires in this pipeline: the
errors caught by the retry loop are `APIError`s or fetch/abort errors,
none of which carry a `response` property.) -/
def handleAPIErrorFn (e : CaughtError) (endpoint : String) : APIErrorM :=
  match e with
  | .api apiErr => apiErr
  | .generic msg => ⟨500, msg, endpoint, none⟩

/-- The retry loop of `HttpClient.request`, from attempt index `k` with
`fuel` attempts remaining: run attempt `k`; return its envelope on
success; on failure, rethrow through `ErrorHandler.handleAPIError` when
this was the last attempt (`attempt === maxRetries` in the source, i.e.
one attempt remaining) and otherwise swallow the error and continue with
attempt `k + 1`.  The `fuel = 0` case is unreachable (the loop always
starts with `maxRetries + 1 ≥ 1` attempts). -/
def requestFrom (url : String) (attempts : Nat → AttemptOutcome) :
    Nat → Nat → Except APIErrorM HttpResponseM
  | _, 0 => .error ⟨500, "no attempt", url, none⟩
  | k, 1 =>
      match attemptStep url (attempts k) with
      | .ok resp => .ok resp
      | .error e => .error (handleAPIErrorFn e url)
  | k, n + 2 =>
      match attemptStep url (attempts k) with
      | .ok resp => .ok resp
      | .error _ => requestFrom url attempts (k + 1) (n + 1)

/-- `HttpClient.request`: `for (attempt = 0; attempt <= maxRetries; ++attempt)`
— up to `maxRetries + 1` attempts starting at attempt 0. -/
def request (url : String) (attempts : Nat → AttemptOutcome)
    (maxRetries : Nat) : Except APIErrorM HttpResponseM :=
  requestFrom url attempts 0 (maxRetries + 1)

/-! ## Configuration resolver (`ConfigManager`) -/

/-- `Environment` from `ConfigManager.ts`. -/
structure EnvironmentM where
  name : String
  baseUrl : String
  timeout : Option Nat
  retries : Option Nat
  headers : List (String × String)
deriving DecidableEq

/-- The `dev` profile loaded by `ConfigManager.loadEnvironments`. -/
def devEnv : EnvironmentM :=
  ⟨"dev", "https://hacker-news.firebaseio.com/v0", some 30000, some 2, []⟩

/-- The `staging` profile loaded by `ConfigManager.loadEnvironments`. -/
def stagingEnv : EnvironmentM :=
  ⟨"staging", "https://hacker-news.firebaseio.com/v0", some 30000, some 2, []⟩

/-- The `production` profile loaded by `ConfigManager.loadEnvironments`. -/
def productionEnv : EnvironmentM :=
  ⟨"production", "https://hacker-news.firebaseio.com/v0", some 30000, some 1, []⟩

/-- `this.environments.get(envName)` over the map populated by
`loadEnvironments` with exactly the three named profiles. -/
def findEnvironment (envName : String) : Option EnvironmentM :=
  if envName = "dev" then some devEnv
  else if envName = "staging" then some stagingEnv
  else if envName = "production" then some productionEnv
  else none

/-- Logging section of `TestConfig`. -/
structure LoggingConfigM where
  level : String
  enabled : Bool
deriving DecidableEq

/-- Reporting section of `TestConfig`. -/
structure ReportingConfigM where
  outputDir : String
  format : List String
deriving DecidableEq

/-- `TestConfig` from `ConfigManager.ts`. -/
structure TestConfigM where
  environment : EnvironmentM
  logging : LoggingConfigM
  reporting : ReportingConfigM
deriving DecidableEq

/-- `ConfigManager.initializeConfig`, with the consulted environment
variables (`TEST_ENV`, `LOG_LEVEL`, `LOGGING_ENABLED`, `REPORT_DIR`,
`REPORT_FORMAT`) passed explicitly as optional strings. -/
def initializeConfig (testEnv logLevel loggingEnabled reportDir
    reportFormat : Option String) : Except ConfigurationErrorM TestConfigM :=
  let envName := testEnv.getD "dev"
  match findEnvironment envName with
  | none =>
      .error ⟨"Environment '" ++ envName ++
              "' not found. Available: dev, staging, production"⟩
  | some environment =>
      .ok { environment,
            logging := ⟨logLevel.getD "INFO",
                        !(loggingEnabled == some "false")⟩,
            reporting := ⟨reportDir.getD "./reports",
                          splitOnChar ',' (reportFormat.getD "html,json")⟩ }

/-- `ConfigManager.setEnvironment`: replace the active environment with
the named profile, raising a `ConfigurationError` for unknown names. -/
def setEnvironment (cfg : TestConfigM) (envName : String) :
    Except ConfigurationErrorM TestConfigM :=
  match findEnvironment envName with
  | none =>
      .error ⟨"Environment '" ++ envName ++
              "' not found. Available: dev, staging, production"⟩
  | some environment => .ok { cfg with environment }

/-- `ConfigManager.getRetries`: `this.config.environment.retries || 0`
(for a natural number, JavaScript `|| 0` equals the 0-default). -/
def getRetriesCfg (cfg : TestConfigM) : Nat :=
  cfg.environment.retries.getD 0

/-- `ConfigManager.getTimeout`: `this.config.environment.timeout || 30000`
(`||` treats a configured 0 as falsy, hence the explicit 0 test). -/
def getTimeoutCfg (cfg : TestConfigM) : Nat :=
  match cfg.environment.timeout with
  | some t => if t = 0 then 30000 else t
  | none => 30000

/-! ## Domain client (`HackerNewsClient`)

The six story-list operations and `getItem`.  The list operations are
stated over the envelope returned by `this.get(...)` (i.e. after the
transport succeeded); `getItem` is stated over the full pipeline including
the transport, since its claim is about transport failures. -/

/-- `ResponseValidator.validateStatus`: the status must be one of the
expected codes (a scalar argument is normalized to a one-element list, as
the source does with `Array.isArray(expectedStatus) ? ... : [...]`). -/
def validateStatus (resp : HttpResponseM) (expectedStatus : List Nat) :
    Except ValidationErrorM Unit :=
  if resp.status ∈ expectedStatus then .ok ()
  else
    .error ⟨"Expected status " ++
              String.intercalate " or " (expectedStatus.map toString) ++
              ", got " ++ toString resp.status,
            some "status", .statusMismatch expectedStatus resp.status⟩

/-- `BaseAPI.validateResponse`: delegate to `validateStatus` when an
expected status is given. -/
def validateResponse (resp : HttpResponseM) (expectedStatus : Option (List Nat)) :
    Except ValidationErrorM Unit :=
  match expectedStatus with
  | none => .ok ()
  | some expected => validateStatus resp expected

/-- JavaScript `Array.prototype.slice(0, limit)`: a non-negative `limit`
takes the first `limit` elements; a negative `limit` resolves to the index
`max(length + limit, 0)`, i.e. drops the last `|limit|` elements. -/
def jsSlice0 (limit : Int) (l : List α) : List α :=
  if 0 ≤ limit then l.take limit.toNat
  else l.take (l.length - (-limit).toNat)

/-- `data.slice(0, limit)` applied to the decoded payload after its
array-ness was validated (the non-array branch is unreachable then). -/
def jsSliceData (data : Json) (limit : Int) : List Json :=
  match data with
  | .arr elems => jsSlice0 limit elems
  | _ => []

/-- `HackerNewsClient.getTopStories` after the transport returned its
envelope: validate status 200, validate the payload is an array, validate
it is non-empty, and return `data.slice(0, limit)`. -/
def getTopStories (resp : HttpResponseM) (limit : Int) :
    Except ValidationErrorM (List Json) := do
  validateResponse resp (some [200])
  validateType (Json.obj [("data", resp.data)]) "data" "array"
  validateArrayNotEmpty (Json.obj [("data", resp.data)]) "data"
  pure (jsSliceData resp.data limit)

/-- `HackerNewsClient.getNewStories`: same body as `getTopStories`
(different endpoint only). -/
def getNewStories (resp : HttpResponseM) (limit : Int) :
    Except ValidationErrorM (List Json) := do
  validateResponse resp (some [200])
  validateType (Json.obj [("data", resp.data)]) "data" "array"
  validateArrayNotEmpty (Json.obj [("data", resp.data)]) "data"
  pure (jsSliceData resp.data limit)

/-- `HackerNewsClient.getBestStories`: same body as `getTopStories`
(different endpoint only). -/
def getBestStories (resp : HttpResponseM) (limit : Int) :
    Except ValidationErrorM (List Json) := do
  validateResponse resp (some [200])
  validateType (Json.obj [("data", resp.data)]) "data" "array"
  validateArrayNotEmpty (Json.obj [("data", resp.data)]) "data"
  pure (jsSliceData resp.data limit)

/-- `HackerNewsClient.getAskStories`: like `getTopStories` but with no
non-empty-array check. -/
def getAskStories (resp : HttpResponseM) (limit : Int) :
    Except ValidationErrorM (List Json) := do
  validateResponse resp (some [200])
  validateType (Json.obj [("data", resp.data)]) "data" "array"
  pure (jsSliceData resp.data limit)

/-- `HackerNewsClient.getShowStories`: same body as `getAskStories`. -/
def getShowStories (resp : HttpResponseM) (limit : Int) :
    Except ValidationErrorM (List Json) := do
  validateResponse resp (some [200])
  validateType (Json.obj [("data", resp.data)]) "data" "array"
  pure (jsSliceData resp.data limit)

/-- `HackerNewsClient.getJobStories`: same body as `getAskStories`. -/
def getJobStories (resp : HttpResponseM) (limit : Int) :
    Except ValidationErrorM (List Json) := do
  validateResponse resp (some [200])
  validateType (Json.obj [("data", resp.data)]) "data" "array"
  pure (jsSliceData resp.data limit)

/-- An error escaping a `HackerNewsClient` method: an `APIError` thrown by
the transport or a `ValidationError` thrown by a validator. -/
inductive ClientError where
  | api (e : APIErrorM)
  | validation (e : ValidationErrorM)

/-- The URL `getItem` requests: `/item/{id}.json` joined to the base. -/
def itemUrlFor (base : String) (itemId : Int) : String :=
  buildUrlStr base ("/item/" ++ toString itemId ++ ".json")

/-- `HackerNewsClient.getItem` over the full pipeline: issue the request
(an `APIError` from the transport propagates); on a returned envelope,
a non-ok flag or a `null` body yields `none`; otherwise require the `id`
field and return the record. -/
def getItem (base : String) (attempts : Nat → AttemptOutcome)
    (maxRetries : Nat) (itemId : Int) : Except ClientError (Option Json) :=
  match request (itemUrlFor base itemId) attempts maxRetries with
  | .error e => .error (.api e)
  | .ok resp =>
      if !resp.ok || resp.data.isNull then .ok none
      else
        match validateRequired resp.data ["id"] with
        | .error v => .error (.validation v)
        | .ok _ => .ok (some resp.data)

/-! ## Schema checker (AJV schemas for item / story / user)

Each declared property is a name paired with its AJV type declaration;
`additionalProperties: false` and `required` are enforced by
`validateAgainst`, mirroring AJV's semantics on the schemas of
`item.schema.ts` and `user.schema.ts` (an object validates iff every
present key is declared, every required key is present, and every present
value matches its declared type; any non-object input fails
`type: 'object'`). -/

/-- The AJV type declaration of one schema property, covering exactly the
forms used by the item/story/comment/job/user schemas. -/
inductive FieldType where
  | number
  | string
  | boolean
  | arrayOfNumber
  | stringEnum (allowed : List String)
  | stringConst (value : String)
deriving DecidableEq

/-- Whether a JSON value is a number (for `items: \x7b type: 'number' \x7d`). -/
def Json.isNum : Json → Bool
  | .num _ => true
  | _ => false

/-- AJV check of one value against one declared property type. -/
def checkFieldType : FieldType → Json → Bool
  | .number, .num _ => true
  | .string, .str _ => true
  | .boolean, .bool _ => true
  | .arrayOfNumber, .arr elems => elems.all Json.isNum
  | .stringEnum allowed, .str s => allowed.contains s
  | .stringConst v, .str s => s = v
  | _, _ => false

/-- Lookup of a property name in a schema's declared property list. -/
def lookupField : List (String × FieldType) → String → Option FieldType
  | [], _ => none
  | (a, ft) :: rest, k => if k = a then some ft else lookupField rest k

/-- `itemSchema.properties` from `item.schema.ts`. -/
def itemProperties : List (String × FieldType) :=
  [("id", .number),
   ("type", .stringEnum ["job", "story", "comment", "poll", "pollopt"]),
   ("by", .string),
   ("time", .number),
   ("text", .string),
   ("dead", .boolean),
   ("parent", .number),
   ("poll", .number),
   ("kids", .arrayOfNumber),
   ("url", .string),
   ("score", .number),
   ("title", .string),
   ("parts", .arrayOfNumber),
   ("descendants", .number),
   ("deleted", .boolean)]

/-- `storySchema.properties`: the spread of `itemSchema.properties` with
`type` overridden to `const: 'story'` (the `title`, `by`, `time`
overrides in the source restate the declarations they replace). -/
def storyProperties : List (String × FieldType) :=
  [("id", .number),
   ("type", .stringConst "story"),
   ("by", .string),
   ("time", .number),
   ("text", .string),
   ("dead", .boolean),
   ("parent", .number),
   ("poll", .number),
   ("kids", .arrayOfNumber),
   ("url", .string),
   ("score", .number),
   ("title", .string),
   ("parts", .arrayOfNumber),
   ("descendants", .number),
   ("deleted", .boolean)]

/-- `userSchema.properties` from `user.schema.ts`. -/
def userProperties : List (String × FieldType) :=
  [("id", .string),
   ("created", .number),
   ("karma", .number),
   ("about", .string),
   ("submitted", .arrayOfNumber)]

/-- AJV validation of a value against a schema with `type: 'object'`,
declared `properties`, a `required` list and
`additionalProperties: false`. -/
def validateAgainst (props : List (String × FieldType))
    (required : List String) (v : Json) : Bool :=
  match v with
  | .obj fields =>
      (fields.all fun kv => (lookupField props kv.1).isSome) &&
      (required.all fun r => (lookupJson fields r).isSome) &&
      (fields.all fun kv =>
        match lookupField props kv.1 with
        | some ft => checkFieldType ft kv.2
        | none => false)
  | _ => false

/-- `validateItem = ajv.compile(itemSchema)`. -/
def validateItem (v : Json) : Bool :=
  validateAgainst itemProperties ["id"] v

/-- `validateStory = ajv.compile(storySchema)`. -/
def validateStory (v : Json) : Bool :=
  validateAgainst storyProperties ["id", "type", "title", "by", "time"] v

/-- `validateUser = ajv.compile(userSchema)`. -/
def validateUser (v : Json) : Bool :=
  validateAgainst userProperties ["id", "created", "karma"] v

/-! ## Lemmas about the retry loop -/

lemma attemptStep_response_ok (url : String) (st : Nat) (stx : String)
    (d : Json) (h1 : 200 ≤ st) (h2 : st ≤ 299) :
    attemptStep url (.response st stx d) = .ok ⟨st, stx, d, true⟩ := by
  simp [attemptStep, h1, h2]

lemma attemptStep_response_fail (url : String) (st : Nat) (stx : String)
    (d : Json) (h : ¬(200 ≤ st ∧ st ≤ 299)) :
    attemptStep url (.response st stx d) =
      .error (.api ⟨st, "HTTP " ++ toString st ++ ": " ++ stx, url, some d⟩) := by
  simp [attemptStep, h]

lemma attemptStep_network (url : String) (msg : String) :
    attemptStep url (.networkError msg) = .error (.generic msg) := rfl

lemma attemptStep_ok_iff (url : String) (o : AttemptOutcome) (r : HttpResponseM) :
    attemptStep url o = .ok r ↔
      ∃ st stx d, o = .response st stx d ∧ 200 ≤ st ∧ st ≤ 299 ∧
        r = ⟨st, stx, d, true⟩ := by
  constructor
  · intro h
    cases o with
    | response st stx d =>
        by_cases hc : 200 ≤ st ∧ st ≤ 299
        · rw [attemptStep_response_ok url st stx d hc.1 hc.2] at h
          exact ⟨st, stx, d, rfl, hc.1, hc.2, (Except.ok.inj h).symm⟩
        · rw [attemptStep_response_fail url st stx d hc] at h
          exact absurd h (by simp)
    | networkError msg =>
        rw [attemptStep_network] at h
        exact absurd h (by simp)
  · rintro ⟨st, stx, d, rfl, h1, h2, rfl⟩
    exact attemptStep_response_ok url st stx d h1 h2

lemma attemptFails_iff_error (url : String) (o : AttemptOutcome) :
    attemptFails url o = true ↔ ∃ e, attemptStep url o = .error e := by
  unfold attemptFails
  cases h : attemptStep url o <;> simp

lemma requestFrom_zero (url : String) (a : Nat → AttemptOutcome) (k : Nat) :
    requestFrom url a k 0 = .error ⟨500, "no attempt", url, none⟩ := rfl

lemma requestFrom_one (url : String) (a : Nat → AttemptOutcome) (k : Nat) :
    requestFrom url a k 1 =
      match attemptStep url (a k) with
      | .ok resp => .ok resp
      | .error e => .error (handleAPIErrorFn e url) := rfl

lemma requestFrom_two (url : String) (a : Nat → AttemptOutcome) (k n : Nat) :
    requestFrom url a k (n + 2) =
      match attemptStep url (a k) with
      | .ok resp => .ok resp
      | .error _ => requestFrom url a (k + 1) (n + 1) := rfl

/-- The retry loop inspects only the attempts it has fuel for. -/
lemma requestFrom_congr (url : String) (a b : Nat → AttemptOutcome) :
    ∀ fuel k, (∀ i, k ≤ i → i < k + fuel → a i = b i) →
      requestFrom url a k fuel = requestFrom url b k fuel := by
  intro fuel
  induction fuel with
  | zero => intro k _; rfl
  | succ n ih =>
      intro k h
      have hk : a k = b k := h k (Nat.le_refl k) (by omega)
      cases n with
      | zero => rw [requestFrom_one, requestFrom_one, hk]
      | succ m =>
          rw [requestFrom_two, requestFrom_two, hk]
          cases hstep : attemptStep url (b k) with
          | ok r => rfl
          | error e =>
              simp only []
              exact ih (k + 1) fun i h1 h2 => h i (by omega) (by omega)

/-- If the attempts before `j` fail and attempt `j` succeeds, the loop
returns the successful attempt's envelope. -/
lemma requestFrom_success (url : String) (a : Nat → AttemptOutcome) :
    ∀ fuel k j r, j < fuel →
      (∀ i, i < j → attemptFails url (a (k + i)) = true) →
      attemptStep url (a (k + j)) = .ok r →
      requestFrom url a k fuel = .ok r := by
  intro fuel
  induction fuel with
  | zero => intro k j r hj; omega
  | succ n ih =>
      intro k j r hj hfail hok
      cases j with
      | zero =>
          simp only [Nat.add_zero] at hok
          cases n with
          | zero => rw [requestFrom_one, hok]
          | succ m => rw [requestFrom_two, hok]
      | succ j0 =>
          have h0 : attemptFails url (a k) = true := by
            have := hfail 0 (by omega)
            simpa using this
          obtain ⟨e, he⟩ := (attemptFails_iff_error url (a k)).mp h0
          cases n with
          | zero => omega
          | succ m =>
              rw [requestFrom_two, he]
              simp only []
              exact ih (k + 1) j0 r (by omega)
                (fun i hi => by
                  have := hfail (i + 1) (by omega)
                  simpa [Nat.add_assoc, Nat.add_comm 1 i] using this)
                (by
                  have harith : k + 1 + j0 = k + (j0 + 1) := by omega
                  rw [harith]
                  exact hok)

/-- If every attempt the loop has fuel for fails, the loop rethrows the
last attempt's error through `ErrorHandler.handleAPIError`. -/
lemma requestFrom_allfail (url : String) (a : Nat → AttemptOutcome) :
    ∀ fuel k, 0 < fuel →
      (∀ i, i < fuel → attemptFails url (a (k + i)) = true) →
      ∃ e, attemptStep url (a (k + fuel - 1)) = .error e ∧
        requestFrom url a k fuel = .error (handleAPIErrorFn e url) := by
  intro fuel
  induction fuel with
  | zero => intro k h; omega
  | succ n ih =>
      intro k _ hfail
      have h0 : attemptFails url (a k) = true := by
        have := hfail 0 (by omega)
        simpa using this
      obtain ⟨e, he⟩ := (attemptFails_iff_error url (a k)).mp h0
      cases n with
      | zero =>
          refine ⟨e, by simpa using he, ?_⟩
          rw [requestFrom_one, he]
      | succ m =>
          obtain ⟨e2, he2, hreq⟩ := ih (k + 1) (by omega)
            (fun i hi => by
              have := hfail (i + 1) (by omega)
              simpa [Nat.add_assoc, Nat.add_comm 1 i] using this)
          refine ⟨e2, ?_, ?_⟩
          · have harith : k + 1 + (m + 1) - 1 = k + (m + 1 + 1) - 1 := by omega
            rw [harith] at he2
            exact he2
          · rw [requestFrom_two, he]
            exact hreq

/-- Every envelope the transport returns has `ok = true` and a 2xx
status: the retry loop never hands a non-ok envelope to its caller. -/
lemma requestFrom_ok_envelope (url : String) (a : Nat → AttemptOutcome) :
    ∀ fuel k r, requestFrom url a k fuel = .ok r →
      r.ok = true ∧ 200 ≤ r.status ∧ r.status ≤ 299 := by
  intro fuel
  induction fuel with
  | zero => intro k r h; exact absurd h (by simp [requestFrom_zero])
  | succ n ih =>
      intro k r h
      cases hstep : attemptStep url (a k) with
      | ok r2 =>
          obtain ⟨st, stx, d, _, h1, h2, hr⟩ :=
            (attemptStep_ok_iff url (a k) r2).mp hstep
          have hr2 : r = r2 := by
            cases n with
            | zero =>
                rw [requestFrom_one] at h
                simp only [hstep, Except.ok.injEq] at h
                exact h.symm
            | succ m =>
                rw [requestFrom_two] at h
                simp only [hstep, Except.ok.injEq] at h
                exact h.symm
          rw [hr2, hr]
          exact ⟨rfl, h1, h2⟩
      | error e =>
          cases n with
          | zero =>
              rw [requestFrom_one] at h
              simp only [hstep] at h
              exact absurd h (by simp)
          | succ m =>
              rw [requestFrom_two] at h
              simp only [hstep] at h
              exact ih (k + 1) r h

lemma request_ok_envelope (url : String) (a : Nat → AttemptOutcome)
    (maxRetries : Nat) (r : HttpResponseM)
    (h : request url a maxRetries = .ok r) :
    r.ok = true ∧ 200 ≤ r.status ∧ r.status ≤ 299 :=
  requestFrom_ok_envelope url a (maxRetries + 1) 0 r h

/-! ## Claim C2 — retry behaviour of `HttpClient.request` -/

/-- C2: `HttpClient.request` attempts the request at most `retries + 1`
times (its result depends only on attempt outcomes `0 .. maxRetries`);
an attempt succeeds exactly when it yields an HTTP response with a 2xx
status, and its envelope then carries that status, body and `ok = true`;
when every attempt before some attempt `k ≤ maxRetries` fails and attempt
`k` succeeds, the call returns that attempt's envelope; and when all
`maxRetries + 1` attempts fail, the call throws an `APIError` carrying
the status of the last observed failure, or a synthetic 500 when the last
failure has no HTTP status. -/
theorem claim_C2 (url : String) (attempts : Nat → AttemptOutcome)
    (maxRetries : Nat) :
    (∀ b : Nat → AttemptOutcome, (∀ i, i ≤ maxRetries → attempts i = b i) →
        request url attempts maxRetries = request url b maxRetries)
    ∧ (∀ (o : AttemptOutcome) (r : HttpResponseM), attemptStep url o = .ok r ↔
        ∃ st stx d, o = .response st stx d ∧ 200 ≤ st ∧ st ≤ 299 ∧
          r = ⟨st, stx, d, true⟩)
    ∧ (∀ k r, k ≤ maxRetries →
        (∀ i, i < k → attemptFails url (attempts i) = true) →
        attemptStep url (attempts k) = .ok r →
        request url attempts maxRetries = .ok r)
    ∧ ((∀ i, i ≤ maxRetries → attemptFails url (attempts i) = true) →
        ∃ e, request url attempts maxRetries = .error e
          ∧ (∀ st stx d, attempts maxRetries = .response st stx d →
              e.statusCode = st)
          ∧ (∀ msg, attempts maxRetries = .networkError msg →
              e.statusCode = 500)) := by
  refine ⟨?_, ?_, ?_, ?_⟩
  · intro b h
    exact requestFrom_congr url attempts b (maxRetries + 1) 0
      fun i _ h2 => h i (by omega)
  · intro o r
    exact attemptStep_ok_iff url o r
  · intro k r hk hfail hok
    exact requestFrom_success url attempts (maxRetries + 1) 0 k r (by omega)
      (fun i hi => by simpa using hfail i hi) (by simpa using hok)
  · intro hfail
    obtain ⟨e, he, hreq⟩ := requestFrom_allfail url attempts (maxRetries + 1) 0
      (by omega) (fun i hi => by simpa using hfail i (by omega))
    have hidx : 0 + (maxRetries + 1) - 1 = maxRetries := by omega
    rw [hidx] at he
    refine ⟨handleAPIErrorFn e url, hreq, ?_, ?_⟩
    · intro st stx d hatt
      rw [hatt] at he
      by_cases hc : 200 ≤ st ∧ st ≤ 299
      · rw [attemptStep_response_ok url st stx d hc.1 hc.2] at he
        exact absurd he (by simp)
      · rw [attemptStep_response_fail url st stx d hc] at he
        have hce := Except.error.inj he
        rw [← hce]
        rfl
    · intro msg hatt
      rw [hatt, attemptStep_network] at he
      have hce := Except.error.inj he
      rw [← hce]
      rfl

/-- C2 witness: one transport failure followed by a 200 response, with a
retry budget of 1, returns the successful envelope. -/
theorem claim_C2_witness :
    request "https://hn.example/maxitem.json"
      (fun i => if i = 0 then .networkError "ECONNRESET"
                else .response 200 "OK" (.num 42)) 1
      = .ok ⟨200, "OK", .num 42, true⟩ := by
  have h := (claim_C2 "https://hn.example/maxitem.json"
      (fun i => if i = 0 then .networkError "ECONNRESET"
                else .response 200 "OK" (.num 42)) 1).2.2.1
  exact h 1 ⟨200, "OK", .num 42, true⟩ (by omega)
    (fun i hi => by
      have hi0 : i = 0 := by omega
      subst hi0
      rfl)
    rfl

/-! ## Claim C1 — `getItem` and absent results -/

/-- C1 counterexample: a transport envelope with `ok = false` (HTTP 404)
does not normalize to an absent result — `HttpClient.request` throws the
`APIError` before `getItem`'s `!response.ok` check can run, and `getItem`
propagates it.  This refutes "a non-ok envelope yields `null` and the
call never throws". -/
theorem claim_C1_counterexample :
    ∃ e, getItem "https://hn.example"
        (fun _ => .response 404 "Not Found" .null) 0 1 = .error (.api e) :=
  ⟨_, rfl⟩

/-- C1 amended: a successful envelope whose decoded body is `null`
normalizes to an absent result (`none`) for every identifier — negative,
zero or arbitrarily large; but a transport failure (non-ok envelope on
the final attempt, or network failure) propagates as a thrown `APIError`;
indeed the transport never returns a non-ok envelope to `getItem`. -/
theorem claim_C1 (base : String) (attempts : Nat → AttemptOutcome)
    (maxRetries : Nat) (itemId : Int) :
    (∀ resp, request (itemUrlFor base itemId) attempts maxRetries = .ok resp →
        resp.data.isNull = true →
        getItem base attempts maxRetries itemId = .ok none)
    ∧ (∀ e, request (itemUrlFor base itemId) attempts maxRetries = .error e →
        getItem base attempts maxRetries itemId = .error (.api e))
    ∧ (∀ resp, request (itemUrlFor base itemId) attempts maxRetries = .ok resp →
        resp.ok = true) := by
  refine ⟨?_, ?_, ?_⟩
  · intro resp hreq hnull
    simp only [getItem, hreq, hnull, Bool.or_true, if_true]
  · intro e hreq
    simp only [getItem, hreq]
  · intro resp hreq
    exact (request_ok_envelope _ _ _ _ hreq).1

/-- C1 witness: with the server answering 200 with body `null` (as the
real service does for unknown ids), `getItem (-5)` resolves to `none`. -/
theorem claim_C1_witness :
    getItem "https://hn.example" (fun _ => .response 200 "OK" .null) 2 (-5)
      = .ok none := by
  have h := (claim_C1 "https://hn.example"
      (fun _ => .response 200 "OK" .null) 2 (-5)).1
  exact h ⟨200, "OK", .null, true⟩ rfl rfl

/-! ## Lemmas about the list operations -/

lemma getNestedValue_data (d : Json) :
    getNestedValue (Json.obj [("data", d)]) "data" = some d := rfl

lemma jsSlice0_nonneg (L : Int) (h : 0 ≤ L) (l : List α) :
    jsSlice0 L l = l.take L.toNat := by
  simp [jsSlice0, h]

lemma jsSlice0_neg (L : Int) (h : L < 0) (l : List α) :
    jsSlice0 L l = l.take (l.length - (-L).toNat) := by
  have : ¬ 0 ≤ L := by omega
  simp [jsSlice0, this]

lemma jsSlice0_nil (L : Int) : jsSlice0 L ([] : List α) = [] := by
  unfold jsSlice0
  split <;> simp

lemma getTopStories_cons (stx : String) (okf : Bool) (x : Json)
    (xs : List Json) (L : Int) :
    getTopStories ⟨200, stx, .arr (x :: xs), okf⟩ L =
      .ok (jsSlice0 L (x :: xs)) := rfl

lemma getNewStories_cons (stx : String) (okf : Bool) (x : Json)
    (xs : List Json) (L : Int) :
    getNewStories ⟨200, stx, .arr (x :: xs), okf⟩ L =
      .ok (jsSlice0 L (x :: xs)) := rfl

lemma getBestStories_cons (stx : String) (okf : Bool) (x : Json)
    (xs : List Json) (L : Int) :
    getBestStories ⟨200, stx, .arr (x :: xs), okf⟩ L =
      .ok (jsSlice0 L (x :: xs)) := rfl

lemma getAskStories_eval (stx : String) (okf : Bool) (ids : List Json)
    (L : Int) :
    getAskStories ⟨200, stx, .arr ids, okf⟩ L = .ok (jsSlice0 L ids) := rfl

lemma getShowStories_eval (stx : String) (okf : Bool) (ids : List Json)
    (L : Int) :
    getShowStories ⟨200, stx, .arr ids, okf⟩ L = .ok (jsSlice0 L ids) := rfl

lemma getJobStories_eval (stx : String) (okf : Bool) (ids : List Json)
    (L : Int) :
    getJobStories ⟨200, stx, .arr ids, okf⟩ L = .ok (jsSlice0 L ids) := rfl

/-! ## Claim C3 — truncation of the story-id list operations -/

/-- C3 counterexample: on an empty server payload, `getTopStories` with
limit 5 does not return the full (empty) payload as the claim's
"`limit` larger than the available set yields the full set without
error" requires — the non-empty-array validation throws instead. -/
theorem claim_C3_counterexample :
    (∃ e, getTopStories ⟨200, "OK", Json.arr [], true⟩ 5 = .error e)
    ∧ getTopStories ⟨200, "OK", Json.arr [], true⟩ 5 ≠ .ok [] := by
  refine ⟨⟨_, rfl⟩, ?_⟩
  intro h
  rw [show getTopStories ⟨200, "OK", Json.arr [], true⟩ (5 : Int) =
        .error ⟨"Array field 'data' should not be empty", some "data",
                VDetails.emptyArray []⟩ from rfl] at h
  exact Except.noConfusion h

/-- C3 amended: for every non-negative limit `L` and server array of
length `N`, the list operations return the first `min(L, N)` elements in
server order (`L = 0` gives `[]`, `L > N` gives the whole payload) — for
`getTopStories`/`getNewStories`/`getBestStories` provided the payload is
non-empty (an empty payload trips their non-empty-array validation), and
for `getAskStories`/`getShowStories`/`getJobStories` unconditionally. -/
theorem claim_C3 (resp : HttpResponseM) (ids : List Json) (L : Int)
    (hstatus : resp.status = 200) (hdata : resp.data = Json.arr ids)
    (hL : 0 ≤ L) :
    (ids ≠ [] →
      getTopStories resp L = .ok (ids.take L.toNat)
      ∧ getNewStories resp L = .ok (ids.take L.toNat)
      ∧ getBestStories resp L = .ok (ids.take L.toNat))
    ∧ getAskStories resp L = .ok (ids.take L.toNat)
    ∧ getShowStories resp L = .ok (ids.take L.toNat)
    ∧ getJobStories resp L = .ok (ids.take L.toNat)
    ∧ (ids.take L.toNat).length = min L.toNat ids.length
    ∧ ids.take L.toNat ++ ids.drop L.toNat = ids := by
  obtain ⟨st, stx, d, okf⟩ := resp
  simp only at hstatus hdata
  subst hstatus hdata
  refine ⟨?_, ?_, ?_, ?_, ?_, ?_⟩
  · intro hne
    obtain ⟨x, xs, rfl⟩ := List.exists_cons_of_ne_nil hne
    exact ⟨by rw [getTopStories_cons, jsSlice0_nonneg L hL],
           by rw [getNewStories_cons, jsSlice0_nonneg L hL],
           by rw [getBestStories_cons, jsSlice0_nonneg L hL]⟩
  · rw [getAskStories_eval, jsSlice0_nonneg L hL]
  · rw [getShowStories_eval, jsSlice0_nonneg L hL]
  · rw [getJobStories_eval, jsSlice0_nonneg L hL]
  · exact List.length_take L.toNat ids
  · exact List.take_append_drop L.toNat ids

/-- C3 witness: limit 2 over a three-element payload returns the first
two elements, for all six operations. -/
theorem claim_C3_witness :
    getTopStories ⟨200, "OK", Json.arr [.num 11, .num 22, .num 33], true⟩ 2
      = .ok [.num 11, .num 22]
    ∧ getAskStories ⟨200, "OK", Json.arr [.num 11, .num 22, .num 33], true⟩ 2
      = .ok [.num 11, .num 22] := by
  have h := claim_C3 ⟨200, "OK", Json.arr [.num 11, .num 22, .num 33], true⟩
    [.num 11, .num 22, .num 33] 2 rfl rfl (by omega)
  exact ⟨(h.1 (by simp)).1, h.2.1⟩

/-! ## Claim C9 — negative limits and `Array.prototype.slice` -/

/-- C9 counterexample: `getTopStories` with limit `-1` over a one-element
payload returns the empty list, refuting "neither returns an empty list
nor throws" as universally stated. -/
theorem claim_C9_counterexample :
    getTopStories ⟨200, "OK", Json.arr [Json.num 7], true⟩ (-1) = .ok [] := rfl

/-- C9 amended: for every negative limit `n` and non-empty server array of
length `N`, `getTopStories n` does not throw: it returns the server array
with its last `min(|n|, N)` elements removed (length `N - min(|n|, N)`,
i.e. `max(N + n, 0)`), which is empty when `|n| ≥ N`; an empty payload
instead trips the non-empty-array validation. -/
theorem claim_C9 (resp : HttpResponseM) (ids : List Json) (n : Int)
    (hstatus : resp.status = 200) (hdata : resp.data = Json.arr ids)
    (hn : n < 0) (hne : ids ≠ []) :
    getTopStories resp n = .ok (ids.take (ids.length - (-n).toNat))
    ∧ (ids.take (ids.length - (-n).toNat)).length
        = ids.length - min (-n).toNat ids.length
    ∧ ids.take (ids.length - (-n).toNat)
        ++ ids.drop (ids.length - (-n).toNat) = ids := by
  obtain ⟨st, stx, d, okf⟩ := resp
  simp only at hstatus hdata
  subst hstatus hdata
  obtain ⟨x, xs, rfl⟩ := List.exists_cons_of_ne_nil hne
  refine ⟨?_, ?_, ?_⟩
  · rw [getTopStories_cons, jsSlice0_neg n hn]
  · rw [List.length_take]
    omega
  · exact List.take_append_drop _ _

/-- C9 witness: limit `-2` over a three-element payload keeps exactly the
first element. -/
theorem claim_C9_witness :
    getTopStories ⟨200, "OK", Json.arr [.num 1, .num 2, .num 3], true⟩ (-2)
      = .ok [.num 1] := by
  have h := claim_C9 ⟨200, "OK", Json.arr [.num 1, .num 2, .num 3], true⟩
    [.num 1, .num 2, .num 3] (-2) rfl rfl (by omega) (by simp)
  exact h.1

/-! ## Claim C10 — empty payload: guarded vs unguarded list operations -/

/-- C10: on an empty server array the six list operations disagree:
`getTopStories`, `getNewStories` and `getBestStories` throw a
`ValidationError` from the non-empty-array check, while `getAskStories`,
`getShowStories` and `getJobStories` return the empty list, for every
limit. -/
theorem claim_C10 (L : Int) :
    (∃ e, getTopStories ⟨200, "OK", Json.arr [], true⟩ L = .error e)
    ∧ (∃ e, getNewStories ⟨200, "OK", Json.arr [], true⟩ L = .error e)
    ∧ (∃ e, getBestStories ⟨200, "OK", Json.arr [], true⟩ L = .error e)
    ∧ getAskStories ⟨200, "OK", Json.arr [], true⟩ L = .ok []
    ∧ getShowStories ⟨200, "OK", Json.arr [], true⟩ L = .ok []
    ∧ getJobStories ⟨200, "OK", Json.arr [], true⟩ L = .ok [] := by
  refine ⟨⟨_, rfl⟩, ⟨_, rfl⟩, ⟨_, rfl⟩, ?_, ?_, ?_⟩
  · rw [getAskStories_eval, jsSlice0_nil]
  · rw [getShowStories_eval, jsSlice0_nil]
  · rw [getJobStories_eval, jsSlice0_nil]

/-- C10 witness: the divergence at limit 10 — `getTopStories` errors
while `getAskStories` returns `[]`. -/
theorem claim_C10_witness :
    (∃ e, getTopStories ⟨200, "OK", Json.arr [], true⟩ 10 = .error e)
    ∧ getAskStories ⟨200, "OK", Json.arr [], true⟩ 10 = .ok [] :=
  ⟨(claim_C10 10).1, (claim_C10 10).2.2.2.1⟩

/-! ## Claim C4 — mutability of the active configuration -/

/-- C4 counterexample: after initialization resolves the `dev` profile,
`setEnvironment "production"` — an operation exposed by the configuration
resolver — replaces the active environment (the retry count changes from
2 to 1), refuting "immutable for the rest of the run". -/
theorem claim_C4_counterexample :
    ∃ c0 c1, initializeConfig none none none none none = .ok c0
      ∧ setEnvironment c0 "production" = .ok c1
      ∧ c1.environment ≠ c0.environment := by
  refine ⟨_, _, rfl, rfl, ?_⟩
  decide

/-- C4 amended: the resolver does expose a mutating operation —
`setEnvironment` succeeds exactly on the three predefined profile names
and replaces the active environment with the named profile (leaving the
logging and reporting sections untouched); unknown names raise a
`ConfigurationError`. -/
theorem claim_C4 (cfg : TestConfigM) (envName : String) :
    ((∃ c, setEnvironment cfg envName = .ok c) ↔
      envName = "dev" ∨ envName = "staging" ∨ envName = "production")
    ∧ (∀ c, setEnvironment cfg envName = .ok c →
        c.environment.name = envName ∧ c.logging = cfg.logging
          ∧ c.reporting = cfg.reporting) := by
  by_cases h1 : envName = "dev"
  · subst h1
    refine ⟨⟨fun _ => Or.inl rfl, fun _ => ⟨_, rfl⟩⟩, ?_⟩
    intro c hc
    have hcc := Except.ok.inj hc
    rw [← hcc]
    exact ⟨rfl, rfl, rfl⟩
  · by_cases h2 : envName = "staging"
    · subst h2
      refine ⟨⟨fun _ => Or.inr (Or.inl rfl), fun _ => ⟨_, rfl⟩⟩, ?_⟩
      intro c hc
      have hcc := Except.ok.inj hc
      rw [← hcc]
      exact ⟨rfl, rfl, rfl⟩
    · by_cases h3 : envName = "production"
      · subst h3
        refine ⟨⟨fun _ => Or.inr (Or.inr rfl), fun _ => ⟨_, rfl⟩⟩, ?_⟩
        intro c hc
        have hcc := Except.ok.inj hc
        rw [← hcc]
        exact ⟨rfl, rfl, rfl⟩
      · have herr : setEnvironment cfg envName =
            .error ⟨"Environment '" ++ envName ++
                    "' not found. Available: dev, staging, production"⟩ := by
          simp [setEnvironment, findEnvironment, h1, h2, h3]
        constructor
        · constructor
          · rintro ⟨c, hc⟩
            rw [herr] at hc
            exact absurd hc (by simp)
          · rintro (rfl | rfl | rfl)
            · exact absurd rfl h1
            · exact absurd rfl h2
            · exact absurd rfl h3
        · intro c hc
          rw [herr] at hc
          exact absurd hc (by simp)

/-- C4 witness: `setEnvironment` succeeds on the `staging` profile. -/
theorem claim_C4_witness :
    ∃ c, setEnvironment ⟨devEnv, ⟨"INFO", true⟩, ⟨"./reports", ["html", "json"]⟩⟩
        "staging" = .ok c :=
  (claim_C4 ⟨devEnv, ⟨"INFO", true⟩, ⟨"./reports", ["html", "json"]⟩⟩
    "staging").1.mpr (Or.inr (Or.inl rfl))

/-! ## Claim C5 — URL joining -/

lemma isAbsoluteUrl_slash_cons (p : List Char) :
    isAbsoluteUrl ('/' :: p) = false := by
  rw [isAbsoluteUrl,
      show "http://".data = ['h', 't', 't', 'p', ':', '/', '/'] from rfl,
      show "https://".data = ['h', 't', 't', 'p', 's', ':', '/', '/'] from rfl]
  simp [List.isPrefixOf]

/-- C5 counterexample: with a base ending in two slashes, `buildUrl` does
not produce exactly one separating slash — it strips at most one trailing
slash, so `buildUrl "b//" "p" = "b//p"`, not the claim's single-slash
join `"b/p"`. -/
theorem claim_C5_counterexample :
    buildUrl "b//".data "p".data = "b//p".data
    ∧ joinSingleSlash "b//".data "p".data = "b/p".data
    ∧ buildUrl "b//".data "p".data ≠ joinSingleSlash "b//".data "p".data := by
  refine ⟨rfl, rfl, ?_⟩
  decide

/-- C5 amended: an absolute path (`http://`/`https://` prefix) is
returned unchanged; and whenever the base carries at most one trailing
slash and the path at most one leading slash, the result is the base
joined to the path with exactly one separating slash.  (With multiple
boundary slashes the source keeps the extras: it strips at most one
trailing slash and never strips a leading slash.) -/
theorem claim_C5 (b p : List Char) (hb : b.getLast? ≠ some '/')
    (hp : p.head? ≠ some '/') (habs : isAbsoluteUrl p = false) :
    buildUrl b p = b ++ '/' :: p
    ∧ buildUrl (b ++ ['/']) p = b ++ '/' :: p
    ∧ buildUrl b ('/' :: p) = b ++ '/' :: p
    ∧ buildUrl (b ++ ['/']) ('/' :: p) = b ++ '/' :: p
    ∧ ∀ q, isAbsoluteUrl q = true → buildUrl b q = q := by
  refine ⟨?_, ?_, ?_, ?_, ?_⟩
  · simp [buildUrl, habs, hb, hp]
  · simp [buildUrl, habs, hp, List.getLast?_concat, List.dropLast_concat]
  · simp [buildUrl, isAbsoluteUrl_slash_cons, hb]
  · simp [buildUrl, isAbsoluteUrl_slash_cons, List.getLast?_concat,
          List.dropLast_concat]
  · intro q hq
    simp [buildUrl, hq]

/-- C5 witness: joining the configured base to `/v0` inserts exactly one
slash. -/
theorem claim_C5_witness :
    buildUrl "https://hn".data ('/' :: "v0".data) = "https://hn/v0".data := by
  have h := claim_C5 "https://hn".data "v0".data (by decide) (by decide)
    (by decide)
  exact h.2.2.1

/-! ## Claim C6 — `validateRequired` -/

lemma isMissingValue_false_iff (o : Option Json) :
    isMissingValue o = false ↔ o ≠ none ∧ o ≠ some Json.null := by
  cases o with
  | none => simp [isMissingValue]
  | some v => cases v <;> simp [isMissingValue]

/-- C6: `validateRequired` succeeds exactly when every dot-separated path
traverses to a value that is neither `undefined` nor `null`; on failure
the thrown `ValidationError` carries the first missing path as its
`field` and lists every missing path (with the data) in its details. -/
theorem claim_C6 (data : Json) (fields : List String) :
    (validateRequired data fields = .ok () ↔
      ∀ f ∈ fields, getNestedValue data f ≠ none
        ∧ getNestedValue data f ≠ some Json.null)
    ∧ (∀ e, validateRequired data fields = .error e →
        e.field = (fields.filter fun f =>
            isMissingValue (getNestedValue data f)).head?
        ∧ e.details = VDetails.missingFields
            (fields.filter fun f => isMissingValue (getNestedValue data f))
            data) := by
  cases hms : fields.filter (fun f => isMissingValue (getNestedValue data f)) with
  | nil =>
      have hok : validateRequired data fields = .ok () := by
        simp [validateRequired, hms]
      constructor
      · constructor
        · intro _ f hf
          have hnm := List.filter_eq_nil_iff.mp hms f hf
          exact (isMissingValue_false_iff _).mp (by simpa using hnm)
        · intro _
          exact hok
      · intro e he
        rw [hok] at he
        exact absurd he (by simp)
  | cons m rest =>
      have herr : validateRequired data fields =
          .error ⟨"Missing required fields: " ++
                    String.intercalate ", " (m :: rest),
                  some m, .missingFields (m :: rest) data⟩ := by
        simp [validateRequired, hms]
      constructor
      · constructor
        · intro hok
          rw [herr] at hok
          exact absurd hok (by simp)
        · intro hall
          exfalso
          have hmem : m ∈ fields.filter
              (fun f => isMissingValue (getNestedValue data f)) := by
            rw [hms]
            exact List.mem_cons_self m rest
          have hmiss := List.of_mem_filter hmem
          have hin : m ∈ fields := List.mem_of_mem_filter hmem
          have hfalse := (isMissingValue_false_iff _).mpr (hall m hin)
          rw [hfalse] at hmiss
          exact Bool.noConfusion hmiss
      · intro e he
        rw [herr] at he
        have hee := Except.error.inj he
        rw [← hee]
        exact ⟨rfl, rfl⟩

/-- C6 witness: both paths present succeeds; a missing `karma` path fails
with `field = "karma"`. -/
theorem claim_C6_witness :
    validateRequired (Json.obj [("id", .num 1), ("by", .str "pg")])
      ["id", "by"] = .ok ()
    ∧ ∃ e, validateRequired (Json.obj [("id", .num 1)]) ["id", "karma"]
        = .error e ∧ e.field = some "karma" := by
  constructor
  · refine (claim_C6 (Json.obj [("id", .num 1), ("by", .str "pg")])
      ["id", "by"]).1.mpr ?_
    intro f hf
    fin_cases hf
    · rw [show getNestedValue (Json.obj [("id", .num 1), ("by", .str "pg")])
          "id" = some (.num 1) from rfl]
      simp
    · rw [show getNestedValue (Json.obj [("id", .num 1), ("by", .str "pg")])
          "by" = some (.str "pg") from rfl]
      simp
  · have hc : validateRequired (Json.obj [("id", .num 1)]) ["id", "karma"]
        = .error ⟨"Missing required fields: karma", some "karma",
                  .missingFields ["karma"] (Json.obj [("id", .num 1)])⟩ := rfl
    refine ⟨_, hc, ?_⟩
    rw [((claim_C6 (Json.obj [("id", .num 1)]) ["id", "karma"]).2 _ hc).1]
    rfl

/-! ## Claims C7 and C8 — schema checker -/

lemma lookupJson_mem : ∀ (l : List (String × Json)) (k : String) (v : Json),
    lookupJson l k = some v → (k, v) ∈ l := by
  intro l
  induction l with
  | nil => intro k v h; exact absurd h (by simp [lookupJson])
  | cons kv rest ih =>
      intro k v h
      obtain ⟨a, w⟩ := kv
      rw [lookupJson] at h
      by_cases hk : k = a
      · rw [if_pos hk] at h
        have hw := Option.some.inj h
        rw [hk, ← hw]
        exact List.Mem.head _
      · rw [if_neg hk] at h
        exact List.Mem.tail _ (ih k v h)

/-- Every property declared by the story schema is declared by the item
schema, with a type declaration that accepts at least the same values
(the `type` discriminator tightens `enum [...]` to `const 'story'`; all
other declarations coincide). -/
lemma story_item_compat (k : String) (ft : FieldType)
    (h : lookupField storyProperties k = some ft) :
    ∃ ft2, lookupField itemProperties k = some ft2
      ∧ ∀ v, checkFieldType ft v = true → checkFieldType ft2 v = true := by
  by_cases h1 : k = "id"
  · subst h1
    rw [show lookupField storyProperties "id"
          = some FieldType.number from rfl] at h
    injection h with h0
    subst h0
    exact ⟨.number, rfl, fun v hv => hv⟩
  by_cases h2 : k = "type"
  · subst h2
    rw [show lookupField storyProperties "type"
          = some (FieldType.stringConst "story") from rfl] at h
    injection h with h0
    subst h0
    refine ⟨.stringEnum ["job", "story", "comment", "poll", "pollopt"],
      rfl, ?_⟩
    intro v hv
    cases v with
    | str s =>
        simp only [checkFieldType, decide_eq_true_eq] at hv
        subst hv
        decide
    | null => exact absurd hv (by simp [checkFieldType])
    | bool b => exact absurd hv (by simp [checkFieldType])
    | num n => exact absurd hv (by simp [checkFieldType])
    | arr es => exact absurd hv (by simp [checkFieldType])
    | obj fs => exact absurd hv (by simp [checkFieldType])
  by_cases h3 : k = "by"
  · subst h3
    rw [show lookupField storyProperties "by"
          = some FieldType.string from rfl] at h
    injection h with h0
    subst h0
    exact ⟨.string, rfl, fun v hv => hv⟩
  by_cases h4 : k = "time"
  · subst h4
    rw [show lookupField storyProperties "time"
          = some FieldType.number from rfl] at h
    injection h with h0
    subst h0
    exact ⟨.number, rfl, fun v hv => hv⟩
  by_cases h5 : k = "text"
  · subst h5
    rw [show lookupField storyProperties "text"
          = some FieldType.string from rfl] at h
    injection h with h0
    subst h0
    exact ⟨.string, rfl, fun v hv => hv⟩
  by_cases h6 : k = "dead"
  · subst h6
    rw [show lookupField storyProperties "dead"
          = some FieldType.boolean from rfl] at h
    injection h with h0
    subst h0
    exact ⟨.boolean, rfl, fun v hv => hv⟩
  by_cases h7 : k = "parent"
  · subst h7
    rw [show lookupField storyProperties "parent"
          = some FieldType.number from rfl] at h
    injection h with h0
    subst h0
    exact ⟨.number, rfl, fun v hv => hv⟩
  by_cases h8 : k = "poll"
  · subst h8
    rw [show lookupField storyProperties "poll"
          = some FieldType.number from rfl] at h
    injection h with h0
    subst h0
    exact ⟨.number, rfl, fun v hv => hv⟩
  by_cases h9 : k = "kids"
  · subst h9
    rw [show lookupField storyProperties "kids"
          = some FieldType.arrayOfNumber from rfl] at h
    injection h with h0
    subst h0
    exact ⟨.arrayOfNumber, rfl, fun v hv => hv⟩
  by_cases h10 : k = "url"
  · subst h10
    rw [show lookupField storyProperties "url"
          = some FieldType.string from rfl] at h
    injection h with h0
    subst h0
    exact ⟨.string, rfl, fun v hv => hv⟩
  by_cases h11 : k = "score"
  · subst h11
    rw [show lookupField storyProperties "score"
          = some FieldType.number from rfl] at h
    injection h with h0
    subst h0
    exact ⟨.number, rfl, fun v hv => hv⟩
  by_cases h12 : k = "title"
  · subst h12
    rw [show lookupField storyProperties "title"
          = some FieldType.string from rfl] at h
    injection h with h0
    subst h0
    exact ⟨.string, rfl, fun v hv => hv⟩
  by_cases h13 : k = "parts"
  · subst h13
    rw [show lookupField storyProperties "parts"
          = some FieldType.arrayOfNumber from rfl] at h
    injection h with h0
    subst h0
    exact ⟨.arrayOfNumber, rfl, fun v hv => hv⟩
  by_cases h14 : k = "descendants"
  · subst h14
    rw [show lookupField storyProperties "descendants"
          = some FieldType.number from rfl] at h
    injection h with h0
    subst h0
    exact ⟨.number, rfl, fun v hv => hv⟩
  by_cases h15 : k = "deleted"
  · subst h15
    rw [show lookupField storyProperties "deleted"
          = some FieldType.boolean from rfl] at h
    injection h with h0
    subst h0
    exact ⟨.boolean, rfl, fun v hv => hv⟩
  exfalso
  simp [storyProperties, lookupField, h1, h2, h3, h4, h5, h6, h7, h8, h9, h10, h11, h12, h13, h14, h15] at h
/-- C7: a record accepted by `validateStory` satisfies every per-field
constraint individually — each required field is present with its
declared type, the discriminator equals `"story"`, and every present
field matches its declared type — and is in particular also accepted by
the generic `validateItem`. -/
theorem claim_C7 (fields : List (String × Json))
    (h : validateStory (Json.obj fields) = true) :
    (∃ n, lookupJson fields "id" = some (.num n))
    ∧ lookupJson fields "type" = some (.str "story")
    ∧ (∃ s, lookupJson fields "title" = some (.str s))
    ∧ (∃ s, lookupJson fields "by" = some (.str s))
    ∧ (∃ n, lookupJson fields "time" = some (.num n))
    ∧ (∀ kv ∈ fields, ∃ ft, lookupField storyProperties kv.1 = some ft
        ∧ checkFieldType ft kv.2 = true)
    ∧ validateItem (Json.obj fields) = true := by
  simp only [validateStory, validateAgainst, Bool.and_eq_true,
    List.all_eq_true] at h
  obtain ⟨⟨hkeys, hreq⟩, htypes⟩ := h
  have hpresent : ∀ kv ∈ fields, ∃ ft,
      lookupField storyProperties kv.1 = some ft
        ∧ checkFieldType ft kv.2 = true := by
    intro kv hkv
    obtain ⟨ft, hft⟩ := Option.isSome_iff_exists.mp (hkeys kv hkv)
    refine ⟨ft, hft, ?_⟩
    have ht := htypes kv hkv
    rw [hft] at ht
    exact ht
  have hfield : ∀ (key : String) (ft : FieldType),
      lookupField storyProperties key = some ft →
      (lookupJson fields key).isSome = true →
      ∃ v, lookupJson fields key = some v ∧ checkFieldType ft v = true := by
    intro key ft hft hsome
    obtain ⟨v, hv⟩ := Option.isSome_iff_exists.mp hsome
    have hmem := lookupJson_mem fields key v hv
    obtain ⟨ft2, hft2, hck⟩ := hpresent (key, v) hmem
    have : ft2 = ft := by
      rw [hft] at hft2
      exact (Option.some.inj hft2).symm
    subst this
    exact ⟨v, hv, hck⟩
  refine ⟨?_, ?_, ?_, ?_, ?_, hpresent, ?_⟩
  · obtain ⟨v, hv, hck⟩ := hfield "id" .number rfl (hreq "id" (by simp))
    cases v <;> simp [checkFieldType] at hck
    exact ⟨_, hv⟩
  · obtain ⟨v, hv, hck⟩ := hfield "type" (.stringConst "story") rfl
      (hreq "type" (by simp))
    cases v <;> simp [checkFieldType] at hck
    rw [hck] at hv
    exact hv
  · obtain ⟨v, hv, hck⟩ := hfield "title" .string rfl (hreq "title" (by simp))
    cases v <;> simp [checkFieldType] at hck
    exact ⟨_, hv⟩
  · obtain ⟨v, hv, hck⟩ := hfield "by" .string rfl (hreq "by" (by simp))
    cases v <;> simp [checkFieldType] at hck
    exact ⟨_, hv⟩
  · obtain ⟨v, hv, hck⟩ := hfield "time" .number rfl (hreq "time" (by simp))
    cases v <;> simp [checkFieldType] at hck
    exact ⟨_, hv⟩
  · simp only [validateItem, validateAgainst, Bool.and_eq_true,
      List.all_eq_true]
    refine ⟨⟨?_, ?_⟩, ?_⟩
    · intro kv hkv
      obtain ⟨ft, hft, _⟩ := hpresent kv hkv
      obtain ⟨ft2, hft2, _⟩ := story_item_compat kv.1 ft hft
      rw [hft2]
      rfl
    · intro r hr
      simp only [List.mem_singleton] at hr
      subst hr
      exact hreq "id" (by simp)
    · intro kv hkv
      obtain ⟨ft, hft, hck⟩ := hpresent kv hkv
      obtain ⟨ft2, hft2, hcompat⟩ := story_item_compat kv.1 ft hft
      rw [hft2]
      exact hcompat kv.2 hck

/-- C7 witness: a minimal valid story record passes `validateStory` and,
via the theorem, also `validateItem`. -/
theorem claim_C7_witness :
    validateStory (Json.obj [("id", .num 1), ("type", .str "story"),
      ("title", .str "T"), ("by", .str "pg"), ("time", .num 5)]) = true
    ∧ validateItem (Json.obj [("id", .num 1), ("type", .str "story"),
      ("title", .str "T"), ("by", .str "pg"), ("time", .num 5)]) = true := by
  have hs : validateStory (Json.obj [("id", .num 1), ("type", .str "story"),
      ("title", .str "T"), ("by", .str "pg"), ("time", .num 5)]) = true := rfl
  exact ⟨hs, (claim_C7 _ hs).2.2.2.2.2.2⟩

/-- C8: any object containing a property key outside the schema's
declared property set is rejected (`additionalProperties: false`), by
`validateItem` and by `validateUser`, even when all required fields are
present with correct types. -/
theorem claim_C8 :
    (∀ (fields : List (String × Json)) (k : String) (v : Json),
        (k, v) ∈ fields → lookupField itemProperties k = none →
        validateItem (Json.obj fields) = false)
    ∧ (∀ (fields : List (String × Json)) (k : String) (v : Json),
        (k, v) ∈ fields → lookupField userProperties k = none →
        validateUser (Json.obj fields) = false) := by
  constructor
  · intro fields k v hmem hnone
    rw [Bool.eq_false_iff]
    intro htrue
    simp only [validateItem, validateAgainst, Bool.and_eq_true,
      List.all_eq_true] at htrue
    have h2 : (lookupField itemProperties k).isSome = true :=
      htrue.1.1 (k, v) hmem
    rw [hnone] at h2
    exact Bool.noConfusion h2
  · intro fields k v hmem hnone
    rw [Bool.eq_false_iff]
    intro htrue
    simp only [validateUser, validateAgainst, Bool.and_eq_true,
      List.all_eq_true] at htrue
    have h2 : (lookupField userProperties k).isSome = true :=
      htrue.1.1 (k, v) hmem
    rw [hnone] at h2
    exact Bool.noConfusion h2

/-- C8 witness: an unknown `foo` key makes `validateItem` and
`validateUser` reject records whose required fields are all present and
well-typed. -/
theorem claim_C8_witness :
    validateItem (Json.obj [("id", .num 1), ("foo", .num 2)]) = false
    ∧ validateUser (Json.obj [("id", .str "pg"), ("created", .num 1),
        ("karma", .num 5), ("foo", .num 2)]) = false := by
  constructor
  · exact claim_C8.1 [("id", .num 1), ("foo", .num 2)] "foo" (.num 2)
      (List.Mem.tail _ (List.Mem.head _)) rfl
  · exact claim_C8.2 [("id", .str "pg"), ("created", .num 1),
      ("karma", .num 5), ("foo", .num 2)] "foo" (.num 2)
      (List.Mem.tail _ (List.Mem.tail _ (List.Mem.tail _ (List.Mem.head _))))
      rfl

end HNFramework
